import Mathlib

/-!
Shallow embedding of the png2lvgl pixel-format encoding engine
(`src/main.rs`), together with proofs about its behavior.

Machine integers are modelled as `Nat` with an explicit `% 2^w` wherever
the Rust value is a fixed-width integer and wrapping could matter.  The
image buffer is modelled as a row-major list of RGBA quads (the `image`
crate's `to_rgba8` view); `to_luma8` is modelled by the crate's
Rec.709 integer luma formula.  Text emission is modelled as the ordered
list of emitted items (one item per `writeln!` group of the source), so
that "bytes handed to the output sink" and their order are visible.
-/

namespace Png2Lvgl

/-- The `ColorFormat` clap enum of `src/main.rs`. -/
inductive ColorFormat where
  | auto
  | trueColor
  | trueColorAlpha
  | trueColorChroma
  | indexed1
  | indexed2
  | indexed4
  | indexed8
  | alpha1
  | alpha2
  | alpha4
  | alpha8
  deriving DecidableEq, Repr

/-- The `LvglVersion` enum of `src/main.rs`. -/
inductive LvglVersion where
  | v8
  | v9
  deriving DecidableEq, Repr

/-- The `FormatError` enum of `src/error.rs` (payload fields only). -/
inductive FormatError where
  | notImplemented (format : String)
  | tooManyColors (colors maxColors : Nat) (format : String)
  | invalidBitDepth (depth : Nat) (format : String)
  deriving DecidableEq, Repr

/-- One RGBA pixel: four 8-bit channels, modelled as `Nat` (the `% 256`
reductions at every use site model the `u8` channel type). -/
structure RGBA where
  r : Nat
  g : Nat
  b : Nat
  a : Nat
  deriving DecidableEq, Repr

/-- The decoded image as the core sees it: dimensions, the color-type
flags the code queries (`img.color().has_alpha()`, `.has_color()`,
`.bits_per_pixel()`), and the row-major RGBA pixel buffer
(the `to_rgba8` view used by the encoders). -/
structure Image where
  width : Nat
  height : Nat
  colorHasAlpha : Bool
  colorHasColor : Bool
  colorBitsPerPixel : Nat
  pixels : List RGBA
  deriving DecidableEq, Repr

/-- The RGB triple of a pixel, alpha dropped, channels reduced to `u8`
range; this is what `count_unique_colors` inserts into its set and the
only pixel data `to_luma8` reads. -/
def rgbOf (p : RGBA) : Nat × Nat × Nat :=
  (p.r % 256, p.g % 256, p.b % 256)

/-- The `image` crate's RGB → 8-bit luma conversion used by
`img.to_luma8()`: Rec.709 weights 2126/7152/722 with integer division
by 10000.  The alpha channel is not read. -/
def lumaOf (p : RGBA) : Nat :=
  (2126 * (p.r % 256) + 7152 * (p.g % 256) + 722 * (p.b % 256)) / 10000

/-- Row slicing of the flat row-major buffer: row `y` of a `w`-wide image
is `take w (drop (y*w) pixels)`; the fuel argument is the pixel-loop
bound `h` of `for y in 0..h`. -/
def rowsOfAux (w : Nat) : Nat → List Nat → List (List Nat)
  | 0, _ => []
  | fuel + 1, l => l.take w :: rowsOfAux w fuel (l.drop w)

/-- The luma grid `img.to_luma8()` as a list of `h` rows of `w` luma
values, in the order `gray.get_pixel(x, y)` visits them. -/
def lumaGrid (img : Image) : List (List Nat) :=
  rowsOfAux img.width img.height (img.pixels.map lumaOf)

/-- `fn detect_format` of `src/main.rs`: keyed solely on
`img.color().has_alpha()`. -/
def detectFormat (img : Image) : ColorFormat :=
  if img.colorHasAlpha then ColorFormat.trueColorAlpha else ColorFormat.trueColor

/-- The set-insertion loop of `fn count_unique_colors`: a `HashSet` of
RGB triples is modelled as a duplicate-free list; the early return fires
as soon as the set size exceeds 256, exactly as in the source. -/
def countUniqueColorsAux : List RGBA → List (Nat × Nat × Nat) → Nat
  | [], colors => colors.length
  | p :: ps, colors =>
      let colors := if rgbOf p ∈ colors then colors else rgbOf p :: colors
      if colors.length > 256 then colors.length
      else countUniqueColorsAux ps colors

/-- `fn count_unique_colors` of `src/main.rs`. -/
def countUniqueColors (img : Image) : Nat :=
  countUniqueColorsAux img.pixels []

/-- The true number of distinct RGB triples of a pixel buffer (the
quantity `count_unique_colors` approximates with its 256-cap). -/
def distinctColors (ps : List RGBA) : Nat :=
  (ps.map rgbOf).toFinset.card

/-- `fn validate_format` of `src/main.rs`.  The `has_color` branch for
alpha formats only emits a `warn!` log line, which does not affect the
returned value and is not modelled. -/
def validateFormat (img : Image) (format : ColorFormat) : Except FormatError Unit :=
  match format with
  | ColorFormat.indexed1 | ColorFormat.indexed2
  | ColorFormat.indexed4 | ColorFormat.indexed8 =>
      let maxColors : Nat :=
        match format with
        | ColorFormat.indexed1 => 2
        | ColorFormat.indexed2 => 4
        | ColorFormat.indexed4 => 16
        | _ => 256
      let formatName : String :=
        match format with
        | ColorFormat.indexed1 => "Indexed1"
        | ColorFormat.indexed2 => "Indexed2"
        | ColorFormat.indexed4 => "Indexed4"
        | _ => "Indexed8"
      let uniqueColors := countUniqueColors img
      if uniqueColors > maxColors then
        Except.error (FormatError.tooManyColors uniqueColors maxColors formatName)
      else Except.ok ()
  | ColorFormat.alpha1 | ColorFormat.alpha2
  | ColorFormat.alpha4 | ColorFormat.alpha8 =>
      let bitDepth : Nat :=
        match format with
        | ColorFormat.alpha1 => 1
        | ColorFormat.alpha2 => 2
        | ColorFormat.alpha4 => 4
        | _ => 8
      let formatName : String :=
        match format with
        | ColorFormat.alpha1 => "Alpha1"
        | ColorFormat.alpha2 => "Alpha2"
        | ColorFormat.alpha4 => "Alpha4"
        | _ => "Alpha8"
      let imgBits := img.colorBitsPerPixel
      if bitDepth < 8 ∧ imgBits > bitDepth * 4 then
        Except.error (FormatError.invalidBitDepth bitDepth formatName)
      else Except.ok ()
  | _ => Except.ok ()

/-- `fn format_name` of `src/main.rs`: the two version-profile tag
tables. -/
def formatName (format : ColorFormat) (v : LvglVersion) : String :=
  match v with
  | LvglVersion.v8 =>
      match format with
      | ColorFormat.auto => "auto"
      | ColorFormat.trueColor => "LV_IMG_CF_TRUE_COLOR"
      | ColorFormat.trueColorAlpha => "LV_IMG_CF_TRUE_COLOR_ALPHA"
      | ColorFormat.trueColorChroma => "LV_IMG_CF_TRUE_COLOR_CHROMA_KEYED"
      | ColorFormat.indexed1 => "LV_IMG_CF_INDEXED_1BIT"
      | ColorFormat.indexed2 => "LV_IMG_CF_INDEXED_2BIT"
      | ColorFormat.indexed4 => "LV_IMG_CF_INDEXED_4BIT"
      | ColorFormat.indexed8 => "LV_IMG_CF_INDEXED_8BIT"
      | ColorFormat.alpha1 => "LV_IMG_CF_ALPHA_1BIT"
      | ColorFormat.alpha2 => "LV_IMG_CF_ALPHA_2BIT"
      | ColorFormat.alpha4 => "LV_IMG_CF_ALPHA_4BIT"
      | ColorFormat.alpha8 => "LV_IMG_CF_ALPHA_8BIT"
  | LvglVersion.v9 =>
      match format with
      | ColorFormat.auto => "auto"
      | ColorFormat.trueColor => "LV_COLOR_FORMAT_RGB565"
      | ColorFormat.trueColorAlpha => "LV_COLOR_FORMAT_RGB565A8"
      | ColorFormat.trueColorChroma => "LV_COLOR_FORMAT_RGB565_CHROMA_KEYED"
      | ColorFormat.indexed1 => "LV_COLOR_FORMAT_I1"
      | ColorFormat.indexed2 => "LV_COLOR_FORMAT_I2"
      | ColorFormat.indexed4 => "LV_COLOR_FORMAT_I4"
      | ColorFormat.indexed8 => "LV_COLOR_FORMAT_I8"
      | ColorFormat.alpha1 => "LV_COLOR_FORMAT_A1"
      | ColorFormat.alpha2 => "LV_COLOR_FORMAT_A2"
      | ColorFormat.alpha4 => "LV_COLOR_FORMAT_A4"
      | ColorFormat.alpha8 => "LV_COLOR_FORMAT_A8"

/-- `let mask = (1 << bpp) - 1;` of `write_indexed`/`write_alpha`.  The
literal is inferred as `u8`, so the shift count is reduced mod 8 and the
result mod 256, exactly as Rust's release-mode (masked) shift semantics
prescribe; for `bpp = 8` this makes `1u8 << 8` evaluate to `1` and the
mask to `0` (builds with overflow checks panic at this point instead). -/
def u8Mask (bpp : Nat) : Nat :=
  (1 <<< (bpp % 8)) % 256 - 1

/-- `let index = (pixel >> (8 - bpp)) & mask;` — the per-pixel value
computed by both packing loops (`index` in `write_indexed`, `value` in
`write_alpha`). -/
def indexOf8 (bpp pixel : Nat) : Nat :=
  ((pixel % 256) >>> (8 - bpp)) &&& u8Mask bpp

/-- The inner `for x in 0..w` packing loop shared by `write_indexed`
and `write_alpha` (the two loops in the source are textually identical):
state is the current `byte` accumulator and the current `shift`; the
empty case is the end-of-row flush `if shift != 8 - bpp`. -/
def packRowAux (bpp : Nat) : List Nat → Nat → Nat → List Nat
  | [], byte, shift => if shift ≠ 8 - bpp then [byte] else []
  | p :: ps, byte, shift =>
      let byte := byte ||| ((indexOf8 bpp p <<< shift) % 256)
      if shift = 0 then byte :: packRowAux bpp ps 0 (8 - bpp)
      else packRowAux bpp ps byte (shift - bpp)

/-- One row of the packing loop, started with `byte = 0` and
`shift = 8 - bpp`. -/
def packRow (bpp : Nat) (row : List Nat) : List Nat :=
  packRowAux bpp row 0 (8 - bpp)

/-- The full `for y in 0..h` packing loop: `byte` and `shift` are reset
at the top of every row, so the emitted data is the concatenation of the
independently packed rows. -/
def packPixels (bpp : Nat) : List (List Nat) → List Nat
  | [] => []
  | row :: rest => packRow bpp row ++ packPixels bpp rest

/-- Palette entry value of `write_indexed`:
`(i * 255 / (palette_size - 1)) as u8`. -/
def paletteValue (bpp i : Nat) : Nat :=
  (i * 255 / ((1 <<< bpp) - 1)) % 256

/-- The emitted palette of `write_indexed`: `2^bpp` RGBA32 entries,
entry `i` is `(v, v, v, 0xff)` with `v = paletteValue bpp i`. -/
def palette (bpp : Nat) : List (Nat × Nat × Nat × Nat) :=
  (List.range (1 <<< bpp)).map fun i =>
    (paletteValue bpp i, paletteValue bpp i, paletteValue bpp i, 0xff)

/-- `let rgb565 = ((r as u16 & 0xF8) << 8) | ((g as u16 & 0xFC) << 3) |
(b as u16 >> 3);` of `write_true_color`. -/
def rgb565 (p : RGBA) : Nat :=
  (((p.r % 256) &&& 0xF8) <<< 8) ||| (((p.g % 256) &&& 0xFC) <<< 3) ||| ((p.b % 256) >>> 3)

/-- The per-pixel loop of `write_true_color`: pushes the two RGB565
bytes (order per `big_endian`) onto the RGB segment and, when `alpha`
holds, the pixel's 8-bit alpha onto the alpha segment. -/
def trueColorSegments (pixels : List RGBA) (alpha bigEndian : Bool) :
    List Nat × List Nat :=
  pixels.foldl
    (fun acc p =>
      let v := rgb565 p
      let rgbBytes := if bigEndian then [v >>> 8, v &&& 0xFF] else [v &&& 0xFF, v >>> 8]
      (acc.1 ++ rgbBytes, if alpha then acc.2 ++ [p.a % 256] else acc.2))
    ([], [])

/-- The `if bpp == 8` split of `write_alpha`: for `bpp = 8` one byte per
pixel straight from the luma image, otherwise the shared packing loop. -/
def writeAlphaData (bpp : Nat) (grid : List (List Nat)) : List Nat :=
  if bpp = 8 then grid.flatten else packPixels bpp grid

/-- One emitted output group, mirroring one `writeln!`/`write!` site of
`src/main.rs` in emission order. -/
inductive OutItem where
  | text (line : String)
  | mapOpen (varName : String)
  | paletteLine (v i : Nat)
  | blank
  | dataArray (bytes : List Nat)
  | mapClose
  | descriptor (varName cf : String) (w h dataSize : Nat)
  deriving DecidableEq, Repr

/-- Number of data bytes an emitted item contributes to the `_map[]`
array: 4 per palette line, the byte count of a `write_data_array` call,
0 for pure syntax. -/
def OutItem.byteCount : OutItem → Nat
  | OutItem.paletteLine _ _ => 4
  | OutItem.dataArray bytes => bytes.length
  | _ => 0

/-- The `data_size` field of the emitted descriptor, read back from the
item stream (the descriptor is the last item every writer emits). -/
def descDataSize (items : List OutItem) : Option Nat :=
  match items.getLast? with
  | some (OutItem.descriptor _ _ _ _ size) => some size
  | _ => none

/-- `fn write_header` of `src/main.rs` as the list of emitted lines. -/
def writeHeaderLines (varName : String) (format : ColorFormat) (bigEndian : Bool) :
    List String :=
  (if format = ColorFormat.trueColor ∨ format = ColorFormat.trueColorAlpha then
    ["/*",
     " * RGB565 byte order: " ++ (if bigEndian then "big-endian" else "little-endian"),
     " */",
     ""]
  else []) ++
  ["#ifdef __has_include",
   "    #if __has_include(\"lvgl.h\")",
   "        #ifndef LV_LVGL_H_INCLUDE_SIMPLE",
   "            #define LV_LVGL_H_INCLUDE_SIMPLE",
   "        #endif",
   "    #endif",
   "#endif\n",
   "#if defined(LV_LVGL_H_INCLUDE_SIMPLE)",
   "    #include \"lvgl.h\"",
   "#else",
   "    #include \"lvgl/lvgl.h\"",
   "#endif\n",
   "#ifndef LV_ATTRIBUTE_MEM_ALIGN",
   "#define LV_ATTRIBUTE_MEM_ALIGN",
   "#endif\n",
   "#ifndef LV_ATTRIBUTE_IMG_" ++ varName.toUpper,
   "#define LV_ATTRIBUTE_IMG_" ++ varName.toUpper,
   "#endif\n"]

/-- `fn write_indexed` of `src/main.rs` as its emitted item stream:
map-array open, `2^bpp` palette lines, a blank line, the packed pixel
data, map-array close, then the descriptor with
`total_size = palette_size * 4 + data.len()`. -/
def writeIndexedItems (img : Image) (varName fc : String) (bpp : Nat) :
    List OutItem :=
  let data := packPixels bpp (lumaGrid img)
  let totalSize := (1 <<< bpp) * 4 + data.length
  (OutItem.mapOpen varName ::
      ((List.range (1 <<< bpp)).map (fun i => OutItem.paletteLine (paletteValue bpp i) i) ++
        [OutItem.blank, OutItem.dataArray data, OutItem.mapClose])) ++
    [OutItem.descriptor varName fc img.width img.height totalSize]

/-- `fn write_true_color` of `src/main.rs` as its emitted item stream:
the whole RGB565 segment, then (for the alpha variant) a blank line and
the whole alpha segment, then the descriptor with
`data_size = rgb_data.len() + alpha_data.len()`. -/
def writeTrueColorItems (img : Image) (varName : String) (alpha : Bool)
    (fc : String) (bigEndian : Bool) : List OutItem :=
  let segs := trueColorSegments img.pixels alpha bigEndian
  (OutItem.mapOpen varName ::
      ([OutItem.dataArray segs.1] ++
        (if alpha then [OutItem.blank, OutItem.dataArray segs.2] else []) ++
        [OutItem.mapClose])) ++
    [OutItem.descriptor varName fc img.width img.height (segs.1.length + segs.2.length)]

/-- `fn write_alpha` of `src/main.rs` as its emitted item stream: no
palette, the (packed or per-byte) pixel data, then the descriptor with
`data_size = data.len()`. -/
def writeAlphaItems (img : Image) (varName fc : String) (bpp : Nat) :
    List OutItem :=
  let data := writeAlphaData bpp (lumaGrid img)
  (OutItem.mapOpen varName :: [OutItem.dataArray data, OutItem.mapClose]) ++
    [OutItem.descriptor varName fc img.width img.height data.length]

/-- `fn generate_c` of `src/main.rs`: writes the header first, then
dispatches on the format; `TrueColorChroma` fails with `NotImplemented`
after the header has already been written to the sink.  The result pairs
the items handed to the writer with the error, if any.  The `Auto` arm
is `unreachable!()` in the source (`run` resolves `Auto` first); it is
modelled as emitting nothing beyond the header. -/
def generateC (img : Image) (varName : String) (format : ColorFormat)
    (lvglVersion : LvglVersion) (bigEndian : Bool) :
    List OutItem × Option FormatError :=
  let header := (writeHeaderLines varName format bigEndian).map OutItem.text
  let fc := formatName format lvglVersion
  match format with
  | ColorFormat.indexed1 => (header ++ writeIndexedItems img varName fc 1, none)
  | ColorFormat.indexed2 => (header ++ writeIndexedItems img varName fc 2, none)
  | ColorFormat.indexed4 => (header ++ writeIndexedItems img varName fc 4, none)
  | ColorFormat.indexed8 => (header ++ writeIndexedItems img varName fc 8, none)
  | ColorFormat.alpha1 => (header ++ writeAlphaItems img varName fc 1, none)
  | ColorFormat.alpha2 => (header ++ writeAlphaItems img varName fc 2, none)
  | ColorFormat.alpha4 => (header ++ writeAlphaItems img varName fc 4, none)
  | ColorFormat.alpha8 => (header ++ writeAlphaItems img varName fc 8, none)
  | ColorFormat.trueColor =>
      (header ++ writeTrueColorItems img varName false fc bigEndian, none)
  | ColorFormat.trueColorAlpha =>
      (header ++ writeTrueColorItems img varName true fc bigEndian, none)
  | ColorFormat.trueColorChroma =>
      (header, some (FormatError.notImplemented "TrueColorChroma"))
  | ColorFormat.auto => (header, none)

/-- Reference form of the RGB565 segment, following the spec's words:
for every pixel in row-major order, the 16-bit RGB565 value as two bytes
in the requested byte order. -/
def rgbSegmentSpec (be : Bool) : List RGBA → List Nat
  | [] => []
  | p :: ps =>
      (if be then [rgb565 p >>> 8, rgb565 p &&& 0xFF]
       else [rgb565 p &&& 0xFF, rgb565 p >>> 8]) ++ rgbSegmentSpec be ps

/-- Reference form of the alpha segment, following the spec's words: the
original 8-bit alpha of every pixel in row-major order, present only for
the alpha variant. -/
def alphaSegmentSpec (alpha : Bool) (pixels : List RGBA) : List Nat :=
  if alpha then pixels.map (fun p => p.a % 256) else []

/-- The tail of `fn run` once the image is loaded and dimension-checked:
resolve `Auto` via `detect_format`, then
`if let Err(e) = validate_format(&img, &format) { warn!(..) }` — the
validation result is only logged, never propagated — then `generate_c`. -/
def runAfterLoad (img : Image) (requested : ColorFormat) (varName : String)
    (lvglVersion : LvglVersion) (bigEndian : Bool) :
    List OutItem × Option FormatError :=
  let format := match requested with
    | ColorFormat.auto => detectFormat img
    | f => f
  generateC img varName format lvglVersion bigEndian

/-- A 1×1 fully white, fully opaque image (luma 255). -/
def whiteImage1x1 : Image :=
  { width := 1, height := 1, colorHasAlpha := false, colorHasColor := true,
    colorBitsPerPixel := 8, pixels := [⟨255, 255, 255, 255⟩] }

/-- The same 1×1 white pixel but with alpha 0 and an alpha-bearing color
type: identical RGB content, different alpha content. -/
def whiteTransl1x1 : Image :=
  { width := 1, height := 1, colorHasAlpha := true, colorHasColor := true,
    colorBitsPerPixel := 32, pixels := [⟨255, 255, 255, 0⟩] }

/-- A 1×1 image whose color type carries an alpha channel although every
pixel is fully opaque. -/
def imgOpaqueRgba : Image :=
  { width := 1, height := 1, colorHasAlpha := true, colorHasColor := true,
    colorBitsPerPixel := 32, pixels := [⟨10, 20, 30, 255⟩] }

/-- A 3×1 image with three distinct RGB colors (more than Indexed1's
two). -/
def imgThreeColors : Image :=
  { width := 3, height := 1, colorHasAlpha := false, colorHasColor := true,
    colorBitsPerPixel := 24,
    pixels := [⟨0, 0, 0, 255⟩, ⟨255, 0, 0, 255⟩, ⟨0, 255, 0, 255⟩] }

/-- A 17×1 image with exactly 17 distinct RGB colors. -/
def img17 : Image :=
  { width := 17, height := 1, colorHasAlpha := false, colorHasColor := true,
    colorBitsPerPixel := 24,
    pixels := (List.range 17).map (fun i => ⟨i, 0, 0, 255⟩) }

/-! ## Helper lemmas -/

/-- Length of the packing loop from an arbitrary in-row state: `shift`
is a multiple of `bpp` with `shift ≤ 8 - bpp`, and `8 - bpp - shift`
bits of the current byte are already occupied. -/
theorem packRowAux_length (bpp : Nat)
    (hb : bpp = 1 ∨ bpp = 2 ∨ bpp = 4 ∨ bpp = 8) (ps : List Nat) :
    ∀ (byte shift : Nat), bpp ∣ shift → shift ≤ 8 - bpp →
      (packRowAux bpp ps byte shift).length
        = ((8 - bpp - shift) + ps.length * bpp + 7) / 8 := by
  induction ps with
  | nil =>
    intro byte shift hdvd hle
    simp only [packRowAux, List.length_nil]
    split
    · next h =>
      simp only [List.length_cons, List.length_nil]
      rcases hb with rfl | rfl | rfl | rfl <;> omega
    · next h =>
      simp only [List.length_nil]
      rcases hb with rfl | rfl | rfl | rfl <;> omega
  | cons p ps ih =>
    intro byte shift hdvd hle
    simp only [packRowAux]
    split
    · next h0 =>
      have h := ih 0 (8 - bpp)
        (by rcases hb with rfl | rfl | rfl | rfl <;> omega) (Nat.le_refl _)
      simp only [List.length_cons, h]
      rcases hb with rfl | rfl | rfl | rfl <;> omega
    · next h0 =>
      have h := ih (byte ||| ((indexOf8 bpp p <<< shift) % 256)) (shift - bpp)
        (by rcases hb with rfl | rfl | rfl | rfl <;> omega)
        (by rcases hb with rfl | rfl | rfl | rfl <;> omega)
      rw [h]
      simp only [List.length_cons]
      rcases hb with rfl | rfl | rfl | rfl <;> omega

/-- A packed row of `n` pixels occupies exactly `ceil(n * bpp / 8)`
bytes. -/
theorem packRow_length (bpp : Nat)
    (hb : bpp = 1 ∨ bpp = 2 ∨ bpp = 4 ∨ bpp = 8) (row : List Nat) :
    (packRow bpp row).length = (row.length * bpp + 7) / 8 := by
  have h := packRowAux_length bpp hb row 0 (8 - bpp)
    (by rcases hb with rfl | rfl | rfl | rfl <;> omega) (Nat.le_refl _)
  rw [packRow, h]
  rcases hb with rfl | rfl | rfl | rfl <;> omega

/-- Packing a concatenation of row blocks packs each block
independently: rows never share bytes. -/
theorem packPixels_append (bpp : Nat) (r1 r2 : List (List Nat)) :
    packPixels bpp (r1 ++ r2) = packPixels bpp r1 ++ packPixels bpp r2 := by
  induction r1 with
  | nil => simp [packPixels]
  | cons r rs ih => simp [packPixels, ih]

/-- Total packed size of a `w`-wide grid. -/
theorem packPixels_length (bpp w : Nat)
    (hb : bpp = 1 ∨ bpp = 2 ∨ bpp = 4 ∨ bpp = 8) (rows : List (List Nat))
    (hw : ∀ row ∈ rows, row.length = w) :
    (packPixels bpp rows).length = rows.length * ((w * bpp + 7) / 8) := by
  induction rows with
  | nil => simp [packPixels]
  | cons r rs ih =>
    have hr : r.length = w := hw r (by simp)
    have hrs : ∀ row ∈ rs, row.length = w := fun row hrow => hw row (by simp [hrow])
    simp only [packPixels, List.length_append, List.length_cons,
      packRow_length bpp hb r, hr, ih hrs]
    ring

/-- Each palette line contributes exactly 4 data bytes. -/
theorem byteCount_palette_sum (bpp : Nat) :
    (((List.range (1 <<< bpp)).map
        (fun i => OutItem.paletteLine (paletteValue bpp i) i)).map
      OutItem.byteCount).sum = (1 <<< bpp) * 4 := by
  generalize (1 <<< bpp) = n
  induction n with
  | zero => simp
  | succ m ih =>
    simp only [List.range_succ, List.map_append, List.sum_append, ih,
      List.map_cons, List.map_nil, List.sum_cons, List.sum_nil, OutItem.byteCount]
    omega

/-- The `write_true_color` loop from an arbitrary accumulator appends
the reference segments. -/
theorem trueColorSegments_acc (alpha be : Bool) (pixels : List RGBA) :
    ∀ acc : List Nat × List Nat,
      List.foldl
        (fun acc p =>
          let v := rgb565 p
          let rgbBytes :=
            if be then [v >>> 8, v &&& 0xFF] else [v &&& 0xFF, v >>> 8]
          (acc.1 ++ rgbBytes, if alpha then acc.2 ++ [p.a % 256] else acc.2))
        acc pixels
      = (acc.1 ++ rgbSegmentSpec be pixels,
         acc.2 ++ alphaSegmentSpec alpha pixels) := by
  induction pixels with
  | nil =>
    intro acc
    cases alpha <;> simp [rgbSegmentSpec, alphaSegmentSpec]
  | cons p ps ih =>
    intro acc
    simp only [List.foldl_cons, ih, rgbSegmentSpec, alphaSegmentSpec]
    cases alpha <;> cases be <;> simp [List.append_assoc]

/-- `write_true_color` produces exactly the reference segments: all
RGB565 byte pairs in row-major order, and the alpha bytes (when
requested) as a separate segment. -/
theorem trueColorSegments_eq (pixels : List RGBA) (alpha be : Bool) :
    trueColorSegments pixels alpha be
      = (rgbSegmentSpec be pixels, alphaSegmentSpec alpha pixels) := by
  have h := trueColorSegments_acc alpha be pixels ([], [])
  simpa [trueColorSegments] using h

/-- With `bpp = 8` the packing loop's mask is 0, so every packed byte is
0, one byte per pixel. -/
theorem packRowAux8_zero (ps : List Nat) :
    packRowAux 8 ps 0 0 = List.replicate ps.length 0 := by
  induction ps with
  | nil => simp [packRowAux]
  | cons p ps ih =>
    simp [packRowAux, indexOf8, u8Mask, ih, List.replicate_succ]

/-- A row packed at `bpp = 8` is all zero bytes. -/
theorem packRow8_replicate (row : List Nat) :
    packRow 8 row = List.replicate row.length 0 := by
  have h : (8 : Nat) - 8 = 0 := rfl
  rw [packRow, h, packRowAux8_zero]

/-- The set-insertion loop computes the distinct-RGB count capped at
257: starting from a duplicate-free seen-set of at most 256 entries, it
returns the size of the union, short-circuited at 257. -/
theorem countUniqueColorsAux_eq (ps : List RGBA) :
    ∀ colors : List (Nat × Nat × Nat), colors.Nodup → colors.length ≤ 256 →
      countUniqueColorsAux ps colors
        = min ((ps.map rgbOf).toFinset ∪ colors.toFinset).card 257 := by
  induction ps with
  | nil =>
    intro colors hnd hle
    simp only [countUniqueColorsAux, List.map_nil, List.toFinset_nil,
      Finset.empty_union]
    rw [List.card_toFinset, hnd.dedup]
    omega
  | cons p ps ih =>
    intro colors hnd hle
    simp only [countUniqueColorsAux, List.map_cons, List.toFinset_cons]
    by_cases hmem : rgbOf p ∈ colors
    · rw [if_pos hmem, if_neg (by omega), ih colors hnd hle]
      have hins : insert (rgbOf p) ((ps.map rgbOf).toFinset ∪ colors.toFinset)
          = (ps.map rgbOf).toFinset ∪ colors.toFinset :=
        Finset.insert_eq_self.mpr
          (Finset.mem_union_right _ (List.mem_toFinset.mpr hmem))
      rw [Finset.insert_union, hins]
    · rw [if_neg hmem]
      have hnd2 : (rgbOf p :: colors).Nodup := List.nodup_cons.mpr ⟨hmem, hnd⟩
      by_cases hlen : (rgbOf p :: colors).length > 256
      · rw [if_pos hlen]
        have hsub : (rgbOf p :: colors).toFinset
            ⊆ insert (rgbOf p) ((ps.map rgbOf).toFinset ∪ colors.toFinset) := by
          intro x hx
          rw [List.toFinset_cons, Finset.mem_insert] at hx
          rcases hx with h | h
          · exact Finset.mem_insert.mpr (Or.inl h)
          · exact Finset.mem_insert.mpr
              (Or.inr (Finset.mem_union_right _ h))
        have hcard := Finset.card_le_card hsub
        rw [List.card_toFinset, hnd2.dedup] at hcard
        simp only [List.length_cons] at hcard hlen
        simp only [List.length_cons]
        rw [Finset.insert_union]
        omega
      · rw [if_neg hlen, ih (rgbOf p :: colors) hnd2 (by simpa using hlen)]
        rw [List.toFinset_cons, Finset.union_insert, Finset.insert_union]

/-- `count_unique_colors` returns the distinct-RGB count capped at
257. -/
theorem countUniqueColors_eq (img : Image) :
    countUniqueColors img = min (distinctColors img.pixels) 257 := by
  have h := countUniqueColorsAux_eq img.pixels [] List.nodup_nil (by simp)
  simpa [countUniqueColors, distinctColors] using h

/-! ## Claim theorems -/

/-- Claim C1: for every image and every supported format, the
`data_size` value written into the emitted descriptor equals the exact
total byte count of the emitted data segment(s): palette bytes plus
packed pixel bytes for indexed formats, RGB565 plus alpha segment
lengths for the true-color formats (the alpha segment being empty
without alpha), and the pixel byte count for alpha-only formats. -/
theorem descriptor_data_size_exact (img : Image) (vn fc : String)
    (bpp : Nat) (alpha be : Bool) :
    descDataSize (writeIndexedItems img vn fc bpp)
        = some (((writeIndexedItems img vn fc bpp).map OutItem.byteCount).sum)
  ∧ descDataSize (writeTrueColorItems img vn alpha fc be)
        = some (((writeTrueColorItems img vn alpha fc be).map OutItem.byteCount).sum)
  ∧ descDataSize (writeAlphaItems img vn fc bpp)
        = some (((writeAlphaItems img vn fc bpp).map OutItem.byteCount).sum)
  ∧ descDataSize (writeIndexedItems img vn fc bpp)
        = some (4 * (palette bpp).length + (packPixels bpp (lumaGrid img)).length)
  ∧ (trueColorSegments img.pixels false be).2 = [] := by
  refine ⟨?_, ?_, ?_, ?_, ?_⟩
  · simp only [writeIndexedItems, descDataSize, List.getLast?_concat,
      List.map_append, List.map_cons, List.map_nil, List.sum_append,
      List.sum_cons, List.sum_nil, OutItem.byteCount, byteCount_palette_sum,
      Option.some.injEq]
    omega
  · cases alpha <;>
      simp [writeTrueColorItems, descDataSize, List.getLast?_concat,
        OutItem.byteCount, trueColorSegments_eq, alphaSegmentSpec]
  · simp [writeAlphaItems, descDataSize, List.getLast?_concat,
      OutItem.byteCount]
  · simp only [writeIndexedItems, descDataSize, List.getLast?_concat,
      palette, List.length_map, List.length_range, Option.some.injEq]
    omega
  · rw [trueColorSegments_eq]
    rfl

/-- Claim C1 witness: a concrete instance of the data-size accounting. -/
theorem descriptor_data_size_exact_inst :
    descDataSize (writeIndexedItems imgThreeColors "img" "LV_COLOR_FORMAT_I1" 1)
      = some (((writeIndexedItems imgThreeColors "img" "LV_COLOR_FORMAT_I1" 1).map
          OutItem.byteCount).sum) :=
  (descriptor_data_size_exact imgThreeColors "img" "LV_COLOR_FORMAT_I1" 1
    false false).1

/-- Claim C2: for every bit depth in {1,2,4,8}, the packing loop shared
by the indexed and alpha-only encoders emits exactly
`ceil(w * bpp / 8)` bytes per `w`-pixel row, flushes any partial byte at
end of row, never packs across a row boundary, and places values
MSB-first within each byte. -/
theorem packing_row_aligned (bpp w : Nat) (rows : List (List Nat))
    (hb : bpp = 1 ∨ bpp = 2 ∨ bpp = 4 ∨ bpp = 8)
    (hw : ∀ row ∈ rows, row.length = w) :
    (∀ row ∈ rows, (packRow bpp row).length = (w * bpp + 7) / 8)
  ∧ (∀ r1 r2 : List (List Nat),
      packPixels bpp (r1 ++ r2) = packPixels bpp r1 ++ packPixels bpp r2)
  ∧ (packPixels bpp rows).length = rows.length * ((w * bpp + 7) / 8)
  ∧ (∀ grid : List (List Nat), bpp ≠ 8 →
      writeAlphaData bpp grid = packPixels bpp grid)
  ∧ packRow 1 [128, 0, 0, 0, 0, 0, 0, 127] = [0x80]
  ∧ packRow 4 [255, 0] = [0xF0] := by
  refine ⟨?_, ?_, ?_, ?_, by decide, by decide⟩
  · intro row hrow
    rw [packRow_length bpp hb row, hw row hrow]
  · exact packPixels_append bpp
  · exact packPixels_length bpp w hb rows hw
  · intro grid h8
    simp [writeAlphaData, h8]

/-- Claim C2 witness: a concrete 2-row, 3-pixel-wide grid at 2 bits per
pixel packs to one byte per row. -/
theorem packing_row_aligned_inst :
    (packPixels 2 [[255, 0, 128], [7, 255, 64]]).length
      = 2 * ((3 * 2 + 7) / 8) :=
  (packing_row_aligned 2 3 [[255, 0, 128], [7, 255, 64]]
    (Or.inr (Or.inl rfl)) (by decide)).2.2.1

set_option maxRecDepth 100000 in
/-- Claim C3: for every bpp in {1,2,4,8} the indexed palette has exactly
`2^bpp` entries in ascending index order, entry `i` is the grayscale
value `i * 255 / (2^bpp - 1)` (an exact division, hence equal to its
rounding) replicated into R, G, B with alpha 0xFF; entry 0 is black,
the last entry is white, and values are strictly increasing. -/
theorem indexed_palette_spec (bpp : Nat)
    (hb : bpp = 1 ∨ bpp = 2 ∨ bpp = 4 ∨ bpp = 8) :
    (palette bpp).length = 2 ^ bpp
  ∧ (∀ i < 2 ^ bpp, (palette bpp)[i]?
      = some (paletteValue bpp i, paletteValue bpp i, paletteValue bpp i, 0xff))
  ∧ (∀ i < 2 ^ bpp, (2 ^ bpp - 1) * paletteValue bpp i = i * 255)
  ∧ (palette bpp)[0]? = some (0, 0, 0, 0xff)
  ∧ (palette bpp)[2 ^ bpp - 1]? = some (255, 255, 255, 0xff)
  ∧ (∀ j < 2 ^ bpp, ∀ i < j, paletteValue bpp i < paletteValue bpp j) := by
  rcases hb with rfl | rfl | rfl | rfl <;>
    exact ⟨by decide, by decide, by decide, by decide, by decide,
      by decide⟩

/-- Claim C3 witness: the 4-bit palette instance. -/
theorem indexed_palette_spec_inst :
    (palette 4).length = 2 ^ 4 :=
  (indexed_palette_spec 4 (Or.inr (Or.inr (Or.inl rfl)))).1

set_option maxRecDepth 4096 in
/-- Claim C4: the true-color encoder processes pixels in row-major
order, packs each pixel's 8-bit R, G, B as
`(R top 5 bits) <<< 11 ||| (G top 6 bits) <<< 5 ||| (B top 5 bits)`,
emits the 16-bit value as two bytes in the requested byte order, and
appends the whole alpha segment after all RGB565 bytes; the 2×1
red/green little-endian example yields exactly the 4 bytes
`00 F8 E0 07`. -/
theorem true_color_layout (pixels : List RGBA) (img : Image)
    (vn fc : String) (alpha be : Bool) :
    (∀ p : RGBA, rgb565 p
        = (((p.r % 256) >>> 3) <<< 11) ||| (((p.g % 256) >>> 2) <<< 5)
            ||| ((p.b % 256) >>> 3))
  ∧ trueColorSegments pixels alpha be
      = (rgbSegmentSpec be pixels, alphaSegmentSpec alpha pixels)
  ∧ writeTrueColorItems img vn true fc be
      = [OutItem.mapOpen vn,
         OutItem.dataArray (rgbSegmentSpec be img.pixels),
         OutItem.blank,
         OutItem.dataArray (alphaSegmentSpec true img.pixels),
         OutItem.mapClose,
         OutItem.descriptor vn fc img.width img.height
           ((rgbSegmentSpec be img.pixels).length
             + (alphaSegmentSpec true img.pixels).length)]
  ∧ trueColorSegments [⟨255, 0, 0, 255⟩, ⟨0, 255, 0, 255⟩] false false
      = ([0x00, 0xF8, 0xE0, 0x07], []) := by
  refine ⟨?_, trueColorSegments_eq pixels alpha be, ?_, by decide⟩
  · intro p
    have hr : ∀ x < 256, x &&& 0xF8 = (x >>> 3) <<< 3 := by decide
    have hg : ∀ x < 256, x &&& 0xFC = (x >>> 2) <<< 2 := by decide
    have h1 : ∀ a : Nat, (a <<< 3) <<< 8 = a <<< 11 := by
      intro a
      rw [← Nat.shiftLeft_add]
    have h2 : ∀ a : Nat, (a <<< 2) <<< 3 = a <<< 5 := by
      intro a
      rw [← Nat.shiftLeft_add]
    rw [rgb565, hr _ (Nat.mod_lt _ (by norm_num)),
      hg _ (Nat.mod_lt _ (by norm_num)), h1, h2]
  · simp [writeTrueColorItems, trueColorSegments_eq]

/-- Claim C5 counterexample: a 3-color image requested as Indexed1 makes
`validate_format` return `TooManyColors`, yet the pipeline does not
abort: `run` only logs the validation error as a warning, `generate_c`
runs, emits output bytes, and completes without error. -/
theorem indexed_validation_not_blocking_cex :
    validateFormat imgThreeColors ColorFormat.indexed1
      = Except.error (FormatError.tooManyColors 3 2 "Indexed1")
  ∧ (runAfterLoad imgThreeColors ColorFormat.indexed1 "img"
      LvglVersion.v9 false).2 = none
  ∧ descDataSize (runAfterLoad imgThreeColors ColorFormat.indexed1 "img"
      LvglVersion.v9 false).1 = some 9 :=
  ⟨rfl, rfl, rfl⟩

/-- Claim C5 (amended): even when `validate_format` fails on an indexed
format, the conversion proceeds — the caller merely logs the error as a
warning — and the full output, descriptor included, is handed to the
sink with no error propagated. -/
theorem indexed_validation_warn_only (img : Image) (vn : String)
    (lv : LvglVersion) (be : Bool) (f : ColorFormat) (e : FormatError)
    (hf : f = ColorFormat.indexed1 ∨ f = ColorFormat.indexed2
        ∨ f = ColorFormat.indexed4 ∨ f = ColorFormat.indexed8)
    (he : validateFormat img f = Except.error e) :
    (runAfterLoad img f vn lv be).2 = none
  ∧ ∃ n, descDataSize (runAfterLoad img f vn lv be).1 = some n := by
  rcases hf with rfl | rfl | rfl | rfl <;> exact ⟨rfl, _, rfl⟩

/-- Claim C5 witness: the amended statement at the 3-color Indexed1
counterexample input. -/
theorem indexed_validation_warn_only_inst :
    (runAfterLoad imgThreeColors ColorFormat.indexed1 "img"
      LvglVersion.v9 false).2 = none
  ∧ ∃ n, descDataSize (runAfterLoad imgThreeColors ColorFormat.indexed1
      "img" LvglVersion.v9 false).1 = some n :=
  indexed_validation_warn_only imgThreeColors "img" LvglVersion.v9 false
    ColorFormat.indexed1 (FormatError.tooManyColors 3 2 "Indexed1")
    (Or.inl rfl) rfl

/-- Claim C6: for each indexed format of bit depth `b`, the validator
returns `TooManyColors{count, max = 2^b, formatName}` exactly when the
number of distinct RGB triples (alpha ignored, counted with the
short-circuit above 256) exceeds `2^b`, and `Ok` otherwise. -/
theorem too_many_colors_iff (img : Image) (f : ColorFormat) (b : Nat)
    (nm : String)
    (hf : (f = ColorFormat.indexed1 ∧ b = 1 ∧ nm = "Indexed1")
        ∨ (f = ColorFormat.indexed2 ∧ b = 2 ∧ nm = "Indexed2")
        ∨ (f = ColorFormat.indexed4 ∧ b = 4 ∧ nm = "Indexed4")
        ∨ (f = ColorFormat.indexed8 ∧ b = 8 ∧ nm = "Indexed8")) :
    (validateFormat img f
        = Except.error (FormatError.tooManyColors
            (min (distinctColors img.pixels) 257) (2 ^ b) nm)
      ↔ 2 ^ b < distinctColors img.pixels)
  ∧ (validateFormat img f = Except.ok ()
      ↔ distinctColors img.pixels ≤ 2 ^ b) := by
  obtain ⟨rfl, rfl, rfl⟩ | ⟨rfl, rfl, rfl⟩ | ⟨rfl, rfl, rfl⟩ | ⟨rfl, rfl, rfl⟩ := hf <;>
  · simp only [validateFormat, countUniqueColors_eq]
    norm_num only
    constructor
    · constructor
      · intro hc
        split at hc
        · next h => omega
        · next h => exact absurd hc (by simp)
      · intro hd
        rw [if_pos (by omega)]
    · constructor
      · intro hc
        split at hc
        · next h => exact absurd hc (by simp)
        · next h => omega
      · intro hd
        rw [if_neg (by omega)]

/-- Claim C6 witness: an image with exactly 17 distinct RGB colors
requested as Indexed4 fails with `TooManyColors{colors: 17,
max_colors: 16}`. -/
theorem too_many_colors_iff_inst :
    validateFormat img17 ColorFormat.indexed4
      = Except.error (FormatError.tooManyColors 17 16 "Indexed4") := by
  have h := (too_many_colors_iff img17 ColorFormat.indexed4 4 "Indexed4"
    (Or.inr (Or.inr (Or.inl ⟨rfl, rfl, rfl⟩)))).1
  have hd : distinctColors img17.pixels = 17 := by decide
  rw [hd] at h
  norm_num at h
  exact h

/-- Claim C7 (refuted — the code, not the claim, is wrong): the `u8`
mask `(1 << bpp) - 1` is total only for bpp in {1,2,4}; at bpp = 8 the
shift overflows (masked to `1 << 0` without overflow checks, a panic
with them), the mask becomes 0, and every Indexed8 data byte is 0x00
instead of the pixel's luma — e.g. a 1×1 white image (luma 255) emits
the data byte 0. -/
theorem indexed8_mask_overflow_bug :
    u8Mask 8 = 0
  ∧ u8Mask 1 = 1
  ∧ u8Mask 2 = 3
  ∧ u8Mask 4 = 15
  ∧ (∀ rows : List (List Nat),
      packPixels 8 rows = List.replicate ((rows.map List.length).sum) 0)
  ∧ lumaGrid whiteImage1x1 = [[255]]
  ∧ packPixels 8 (lumaGrid whiteImage1x1) = [0]
  ∧ (0 : Nat) ≠ 255 := by
  refine ⟨rfl, rfl, rfl, rfl, ?_, by decide, by decide, by decide⟩
  intro rows
  induction rows with
  | nil => simp [packPixels]
  | cons r rs ih =>
    rw [packPixels, packRow8_replicate, ih, ← List.replicate_add,
      List.map_cons, List.sum_cons]

/-- Claim C8 counterexample: a fully opaque source whose color type
carries an alpha channel resolves to TrueColorAlpha, not TrueColor —
detection reads the color type, not the pixel alphas. -/
theorem detect_format_opaque_rgba_cex :
    (∀ p ∈ imgOpaqueRgba.pixels, p.a = 255)
  ∧ imgOpaqueRgba.colorHasAlpha = true
  ∧ detectFormat imgOpaqueRgba = ColorFormat.trueColorAlpha
  ∧ detectFormat imgOpaqueRgba ≠ ColorFormat.trueColor := by decide

/-- Claim C8 (amended): automatic detection depends only on whether the
source's color type has an alpha channel — with one it resolves to
TrueColorAlpha even if every pixel is opaque, without one to TrueColor —
and is entirely independent of the pixel contents. -/
theorem detect_format_channel_only (img : Image) (ps : List RGBA) :
    detectFormat { img with colorHasAlpha := true }
      = ColorFormat.trueColorAlpha
  ∧ detectFormat { img with colorHasAlpha := false }
      = ColorFormat.trueColor
  ∧ detectFormat { img with pixels := ps } = detectFormat img :=
  ⟨rfl, rfl, rfl⟩

/-- Claim C9: the alpha-only encoders derive every emitted value from
the converted luma and never from the source alpha channel — two images
with identical RGB content but arbitrary alpha encode identically — emit
no palette segment, and a 1×1 white opaque pixel at Alpha1 produces the
single data byte 0x80. -/
theorem alpha_encoder_luma_based (img1 img2 : Image) (vn fc : String)
    (bpp : Nat) (hw : img1.width = img2.width)
    (hh : img1.height = img2.height)
    (hpx : img1.pixels.map rgbOf = img2.pixels.map rgbOf) :
    writeAlphaItems img1 vn fc bpp = writeAlphaItems img2 vn fc bpp
  ∧ (∀ v i, OutItem.paletteLine v i ∉ writeAlphaItems img1 vn fc bpp)
  ∧ writeAlphaItems whiteImage1x1 vn fc 1
      = [OutItem.mapOpen vn, OutItem.dataArray [0x80], OutItem.mapClose,
         OutItem.descriptor vn fc 1 1 1] := by
  have hluma : img1.pixels.map lumaOf = img2.pixels.map lumaOf := by
    have h1 : ∀ ps : List RGBA, ps.map lumaOf
        = (ps.map rgbOf).map
            (fun t => (2126 * t.1 + 7152 * t.2.1 + 722 * t.2.2) / 10000) := by
      intro ps
      rw [List.map_map]
      rfl
    rw [h1, h1, hpx]
  refine ⟨?_, ?_, rfl⟩
  · simp [writeAlphaItems, lumaGrid, hw, hh, hluma]
  · intro v i
    simp [writeAlphaItems]

/-- Claim C9 witness: the white pixel with alpha 255 and the white pixel
with alpha 0 encode to identical Alpha1 output. -/
theorem alpha_encoder_luma_based_inst :
    writeAlphaItems whiteImage1x1 "img" "LV_COLOR_FORMAT_A1" 1
      = writeAlphaItems whiteTransl1x1 "img" "LV_COLOR_FORMAT_A1" 1 :=
  (alpha_encoder_luma_based whiteImage1x1 whiteTransl1x1 "img"
    "LV_COLOR_FORMAT_A1" 1 rfl rfl rfl).1

/-- Claim C10 counterexample: selecting TrueColorChroma does fail with
`NotImplemented{TrueColorChroma}`, but only after the header preamble
has been handed to the output sink — the emitted item list at the point
of failure is not empty. -/
theorem chroma_partial_header_cex :
    (generateC imgOpaqueRgba "img" ColorFormat.trueColorChroma
      LvglVersion.v9 false).2
      = some (FormatError.notImplemented "TrueColorChroma")
  ∧ (generateC imgOpaqueRgba "img" ColorFormat.trueColorChroma
      LvglVersion.v9 false).1 ≠ [] := by
  constructor
  · rfl
  · simp [generateC, writeHeaderLines]

/-- Claim C10 (amended): selecting TrueColorChroma fails with
`NotImplemented{TrueColorChroma}` and emits no array or descriptor
bytes, but the header preamble has already been written to the sink
when the failure is returned (the caller then deletes the partial file
in file mode; in stdout mode the header remains emitted). -/
theorem chroma_fails_after_header (img : Image) (vn : String)
    (lv : LvglVersion) (be : Bool) :
    generateC img vn ColorFormat.trueColorChroma lv be
      = ((writeHeaderLines vn ColorFormat.trueColorChroma be).map
          OutItem.text,
         some (FormatError.notImplemented "TrueColorChroma"))
  ∧ (writeHeaderLines vn ColorFormat.trueColorChroma be).map OutItem.text
      ≠ [] := by
  constructor
  · rfl
  · simp [writeHeaderLines]

end Png2Lvgl
